import Mathlib

/-!
Verification development for the `iso15118` SECC control-plane repository.

The definitions below are a shallow embedding of the parts of the code that
the verified properties are about:

* `iso15118/secc/controller/evse_data.py` — the `ACLimits` / `DCLimits`
  dataclasses and their shared `update` / `as_dict` methods, which merge a
  field-name → value mapping into the instance dictionary (`__dict__`),
  decoding `{"value": v, "exponent": e}` physical-value dictionaries to
  `v * 10 ** e` on the way.
* `iso15118/shared/messages/enums.py` — the `Protocol` registry
  (`get_by_ns`) and the `ServiceV20` registry (`get_by_id`).
* `iso15118/secc/controller/evse_data_remote_node.py` — the MQTT
  remote-control bridge's `on_message` dispatch.

Python numbers are modelled as rationals (`ℚ`), so that the semantic value
`v * 10 ^ e` of a wire pair is exact; a Python object's `__dict__` is
modelled as an ordered association list `List (String × Option ℚ)` with
CPython dict semantics for `d[k] = v` (update in place when the key is
present, append otherwise).
-/

namespace ISO15118

/-- A Python runtime value as it may appear in the `params` mapping passed to
`ACLimits.update` / `DCLimits.update`.  `vphys v e` stands for a
`PhysicalValue` dictionary `{"value": v, "exponent": e}` with integer
entries; the remaining constructors are the scalar types the method's
`type(v)`-dispatch distinguishes. -/
inductive PyVal where
  | vint (n : ℤ)
  | vfloat (q : ℚ)
  | vbool (b : Bool)
  | vstr (s : String)
  | vnone
  | vphys (value : ℤ) (exponent : ℤ)
deriving DecidableEq

/-- Semantic value of a wire `(value, exponent)` pair: the expression
`v["value"] * 10 ** v["exponent"]` computed by `update`
(evse_data.py lines 68 and 133), and the spec's `decode`. -/
def physDecode (value exponent : ℤ) : ℚ :=
  (value : ℚ) * (10 : ℚ) ^ exponent

/-- The numeric value that `update` stores for a parameter value, if any:
a `PhysicalValue` dict is decoded, an `int` or `float` is kept as is, and
every other runtime type falls through the `if`/`elif` chain and is
dropped (evse_data.py lines 66-71 and 131-136). -/
def pyNumeric : PyVal → Option ℚ
  | .vphys v e => some (physDecode v e)
  | .vint n => some ((n : ℚ))
  | .vfloat q => some q
  | _ => none

/-- A Python instance `__dict__`: an insertion-ordered mapping from
attribute names to `None` (`none`) or a number (`some q`). -/
abbrev ObjDict := List (String × Option ℚ)

/-- The keys of a `__dict__`, in insertion order. -/
def dictKeys (d : ObjDict) : List String := d.map Prod.fst

/-- Attribute lookup: `some v` when the attribute is present (with `v` its
stored value), `none` when absent (an `AttributeError` in Python). -/
def dictGet (d : ObjDict) (k : String) : Option (Option ℚ) :=
  (d.find? (fun p => p.1 == k)).map Prod.snd

/-- CPython `d[k] = q` on an insertion-ordered dict: an existing key keeps
its position and gets the new value, a new key is appended at the end. -/
def dictSet (d : ObjDict) (k : String) (q : ℚ) : ObjDict :=
  if k ∈ dictKeys d then
    d.map (fun p => if p.1 = k then (k, some q) else p)
  else d ++ [(k, some q)]

/-- The `evse_params` dictionary built by the loop in `update`
(evse_data.py lines 65-71 and 130-136): each parameter whose value is a
dict is decoded via `value * 10 ** exponent`, each `int`/`float` is kept,
and every other value is skipped. -/
def evseParamsOf (params : List (String × PyVal)) : List (String × ℚ) :=
  params.filterMap (fun kv => (pyNumeric kv.2).map (fun q => (kv.1, q)))

/-- Folding `d[k] = q` over a list of bindings: the effect of
`self.__dict__.update(evse_params)` (CPython iterates the argument's items
in order and assigns each). -/
def applyAll (d : ObjDict) (l : List (String × ℚ)) : ObjDict :=
  l.foldl (fun acc kv => dictSet acc kv.1 kv.2) d

namespace Limits

/-- `ACLimits.update` / `DCLimits.update` (evse_data.py lines 61-72 and
126-137): build `evse_params` from `params`, then merge it into
`self.__dict__`.  The two methods are textually identical, so a single
definition over the instance dictionary embeds both. -/
def update (d : ObjDict) (params : List (String × PyVal)) : ObjDict :=
  applyAll d (evseParamsOf params)

/-- `as_dict` (evse_data.py lines 74-75 and 139-140): returns
`self.__dict__`. -/
def as_dict (d : ObjDict) : ObjDict := d

end Limits

/-- The declared fields of the `ACLimits` dataclass, in declaration order
(evse_data.py lines 20-59). -/
def ACLimits.fieldNames : List String :=
  [ "evse_nominal_voltage", "evse_max_current",
    "evse_max_charge_power", "evse_min_charge_power",
    "evse_max_charge_power_l2", "evse_max_charge_power_l3",
    "evse_min_charge_power_l2", "evse_min_charge_power_l3",
    "evse_nominal_frequency", "max_power_asymmetry",
    "evse_power_ramp_limit",
    "evse_present_active_power", "evse_present_active_power_l2",
    "evse_present_active_power_l3",
    "evse_max_discharge_power", "evse_min_discharge_power",
    "evse_max_discharge_power_l2", "evse_max_discharge_power_l3",
    "evse_min_discharge_power_l2", "evse_min_discharge_power_l3",
    "evse_target_active_power", "evse_target_active_power_l2",
    "evse_target_active_power_l3",
    "evse_target_reactive_power", "evse_target_reactive_power_l2",
    "evse_target_reactive_power_l3" ]

/-- A freshly constructed `ACLimits()`: every declared field defaults to
`None`. -/
def ACLimits.init : ObjDict := ACLimits.fieldNames.map (fun f => (f, none))

/-- The declared fields of the `DCLimits` dataclass, in declaration order
(evse_data.py lines 94-124). -/
def DCLimits.fieldNames : List String :=
  [ "evse_max_charge_power", "evse_min_charge_power",
    "evse_max_charge_current", "evse_min_charge_current",
    "evse_max_voltage", "evse_min_voltage",
    "evse_power_ramp_limit",
    "evse_max_discharge_power", "evse_min_discharge_power",
    "evse_max_discharge_current", "evse_min_discharge_current",
    "evse_current_regulation_tolerance", "evse_peak_current_ripple",
    "evse_energy_to_be_delivered",
    "evse_maximum_current_limit", "evse_maximum_power_limit",
    "evse_maximum_voltage_limit", "evse_minimum_current_limit",
    "evse_minimum_voltage_limit" ]

/-- A freshly constructed `DCLimits()`: every declared field defaults to
`None`. -/
def DCLimits.init : ObjDict := DCLimits.fieldNames.map (fun f => (f, none))

/-! Basic behaviour of the `__dict__` model. -/

theorem dictGet_cons (a : String × Option ℚ) (t : ObjDict) (k : String) :
    dictGet (a :: t) k = if a.1 = k then some a.2 else dictGet t k := by
  by_cases h : a.1 = k <;> simp [dictGet, h]

theorem map_set_id_of_not_mem (d : ObjDict) (k : String) (q : ℚ)
    (h : k ∉ dictKeys d) :
    d.map (fun p => if p.1 = k then (k, some q) else p) = d := by
  induction d with
  | nil => rfl
  | cons p t ih =>
    simp only [dictKeys, List.map_cons, List.mem_cons, not_or] at h
    have hne : ¬ p.1 = k := fun hh => h.1 hh.symm
    simp only [List.map_cons, if_neg hne, ih h.2]

theorem dictKeys_map_set (d : ObjDict) (k : String) (q : ℚ) :
    dictKeys (d.map (fun p => if p.1 = k then (k, some q) else p)) =
      dictKeys d := by
  induction d with
  | nil => rfl
  | cons p t ih =>
    by_cases h : p.1 = k
    · simp only [dictKeys, List.map_cons, if_pos h] at *
      rw [ih]
      simp [h]
    · simp only [dictKeys, List.map_cons, if_neg h] at *
      rw [ih]

theorem dictKeys_dictSet (d : ObjDict) (k : String) (q : ℚ) :
    dictKeys (dictSet d k q) =
      if k ∈ dictKeys d then dictKeys d else dictKeys d ++ [k] := by
  unfold dictSet
  by_cases h : k ∈ dictKeys d
  · rw [if_pos h, if_pos h, dictKeys_map_set]
  · rw [if_neg h, if_neg h]
    simp [dictKeys]

theorem mem_dictKeys_dictSet_self (d : ObjDict) (k : String) (q : ℚ) :
    k ∈ dictKeys (dictSet d k q) := by
  rw [dictKeys_dictSet]
  by_cases h : k ∈ dictKeys d <;> simp [h]

theorem mem_dictKeys_dictSet_of_mem (d : ObjDict) (k k' : String) (q : ℚ)
    (h : k ∈ dictKeys d) : k ∈ dictKeys (dictSet d k' q) := by
  rw [dictKeys_dictSet]
  by_cases h' : k' ∈ dictKeys d <;> simp [h', h]

theorem dictKeys_dictSet_nodup (d : ObjDict) (k : String) (q : ℚ)
    (hd : (dictKeys d).Nodup) : (dictKeys (dictSet d k q)).Nodup := by
  rw [dictKeys_dictSet]
  by_cases h : k ∈ dictKeys d
  · rwa [if_pos h]
  · rw [if_neg h]
    simp [List.nodup_append, hd, h]

theorem dictGet_dictSet_self (d : ObjDict) (k : String) (q : ℚ) :
    dictGet (dictSet d k q) k = some (some q) := by
  unfold dictSet
  by_cases h : k ∈ dictKeys d
  · rw [if_pos h]
    induction d with
    | nil => simp [dictKeys] at h
    | cons p t ih =>
      by_cases hp : p.1 = k
      · simp [dictGet_cons, hp]
      · simp only [List.map_cons, if_neg hp]
        rw [dictGet_cons, if_neg hp]
        apply ih
        simp only [dictKeys, List.map_cons, List.mem_cons] at h
        rcases h with h | h
        · exact absurd h.symm hp
        · exact h
  · rw [if_neg h]
    induction d with
    | nil => simp [dictGet_cons]
    | cons p t ih =>
      simp only [dictKeys, List.map_cons, List.mem_cons, not_or] at h
      have hne : ¬ p.1 = k := fun hh => h.1 hh.symm
      rw [List.cons_append, dictGet_cons, if_neg hne]
      exact ih h.2

theorem dictGet_map_set_ne (d : ObjDict) (k k' : String) (q : ℚ)
    (hne : k' ≠ k) :
    dictGet (d.map (fun p => if p.1 = k' then (k', some q) else p)) k =
      dictGet d k := by
  induction d with
  | nil => rfl
  | cons p t ih =>
    by_cases hp : p.1 = k'
    · have hpk : ¬ p.1 = k := by rw [hp]; exact hne
      simp only [List.map_cons, if_pos hp]
      rw [dictGet_cons, dictGet_cons, if_neg hne, if_neg hpk]
      exact ih
    · simp only [List.map_cons, if_neg hp]
      rw [dictGet_cons, dictGet_cons]
      by_cases hpk : p.1 = k
      · rw [if_pos hpk, if_pos hpk]
      · rw [if_neg hpk, if_neg hpk]
        exact ih

theorem dictGet_append_single_ne (d : ObjDict) (k k' : String) (q : ℚ)
    (hne : k' ≠ k) :
    dictGet (d ++ [(k', some q)]) k = dictGet d k := by
  induction d with
  | nil => simp [dictGet_cons, if_neg hne, dictGet]
  | cons p t ih =>
    rw [List.cons_append, dictGet_cons, dictGet_cons]
    by_cases hpk : p.1 = k
    · rw [if_pos hpk, if_pos hpk]
    · rw [if_neg hpk, if_neg hpk]
      exact ih

theorem dictGet_dictSet_ne (d : ObjDict) (k k' : String) (q : ℚ)
    (hne : k' ≠ k) : dictGet (dictSet d k' q) k = dictGet d k := by
  unfold dictSet
  by_cases h : k' ∈ dictKeys d
  · rw [if_pos h]
    exact dictGet_map_set_ne d k k' q hne
  · rw [if_neg h]
    exact dictGet_append_single_ne d k k' q hne

theorem dictSet_eq_self (d : ObjDict) (k : String) (q : ℚ)
    (hd : (dictKeys d).Nodup) (h : dictGet d k = some (some q)) :
    dictSet d k q = d := by
  have hmem : k ∈ dictKeys d := by
    unfold dictGet at h
    rcases hfind : d.find? (fun p => p.1 == k) with _ | p
    · rw [hfind] at h
      simp at h
    · have hp : p.1 = k := by simpa using List.find?_some hfind
      exact hp ▸ List.mem_map_of_mem Prod.fst (List.mem_of_find?_eq_some hfind)
  unfold dictSet
  rw [if_pos hmem]
  clear hmem
  induction d with
  | nil => rfl
  | cons p t ih =>
    by_cases hp : p.1 = k
    · rw [dictGet_cons, if_pos hp] at h
      have hval : p.2 = some q := by simpa using h
      have hknt : k ∉ dictKeys t := by
        simp only [dictKeys, List.map_cons, List.nodup_cons] at hd
        exact hp ▸ hd.1
      have hpair : p = (k, some q) := by
        cases p
        simp only [Prod.mk.injEq]
        exact ⟨hp, hval⟩
      simp only [List.map_cons, if_pos hp]
      rw [map_set_id_of_not_mem t k q hknt, hpair]
    · have hd' : (dictKeys t).Nodup := by
        simp only [dictKeys, List.map_cons, List.nodup_cons] at hd
        exact hd.2
      rw [dictGet_cons, if_neg hp] at h
      simp only [List.map_cons, if_neg hp]
      rw [ih hd' h]

/-! Behaviour of `applyAll` (the `__dict__.update` merge). -/

theorem applyAll_nil (d : ObjDict) : applyAll d [] = d := rfl

theorem applyAll_cons (d : ObjDict) (kv : String × ℚ) (t : List (String × ℚ)) :
    applyAll d (kv :: t) = applyAll (dictSet d kv.1 kv.2) t := rfl

theorem dictGet_applyAll_not_mem (d : ObjDict) (l : List (String × ℚ))
    (k : String) (h : k ∉ l.map Prod.fst) :
    dictGet (applyAll d l) k = dictGet d k := by
  induction l generalizing d with
  | nil => rfl
  | cons kv t ih =>
    simp only [List.map_cons, List.mem_cons, not_or] at h
    rw [applyAll_cons, ih _ h.2, dictGet_dictSet_ne _ _ _ _ (fun hh => h.1 hh.symm)]

theorem dictGet_applyAll_mem (d : ObjDict) (l : List (String × ℚ))
    (k : String) (q : ℚ) (hl : (l.map Prod.fst).Nodup) (hm : (k, q) ∈ l) :
    dictGet (applyAll d l) k = some (some q) := by
  induction l generalizing d with
  | nil => simp at hm
  | cons kv t ih =>
    simp only [List.map_cons, List.nodup_cons] at hl
    rcases List.mem_cons.mp hm with hm | hm
    · have hknt : k ∉ t.map Prod.fst := by
        rw [← hm] at hl
        exact hl.1
      rw [applyAll_cons, dictGet_applyAll_not_mem _ _ _ hknt, ← hm,
        dictGet_dictSet_self]
    · rw [applyAll_cons]
      exact ih _ hl.2 hm

theorem mem_dictKeys_applyAll_of_mem (d : ObjDict) (l : List (String × ℚ))
    (k : String) (h : k ∈ dictKeys d) : k ∈ dictKeys (applyAll d l) := by
  induction l generalizing d with
  | nil => exact h
  | cons kv t ih =>
    rw [applyAll_cons]
    exact ih _ (mem_dictKeys_dictSet_of_mem _ _ _ _ h)

theorem dictKeys_applyAll_nodup (d : ObjDict) (l : List (String × ℚ))
    (hd : (dictKeys d).Nodup) : (dictKeys (applyAll d l)).Nodup := by
  induction l generalizing d with
  | nil => exact hd
  | cons kv t ih =>
    rw [applyAll_cons]
    exact ih _ (dictKeys_dictSet_nodup _ _ _ hd)

theorem mem_dictKeys_applyAll (d : ObjDict) (l : List (String × ℚ))
    (k : String) (h : k ∈ dictKeys (applyAll d l)) :
    k ∈ dictKeys d ∨ k ∈ l.map Prod.fst := by
  induction l generalizing d with
  | nil => exact Or.inl h
  | cons kv t ih =>
    rw [applyAll_cons] at h
    rcases ih _ h with h' | h'
    · rw [dictKeys_dictSet] at h'
      by_cases hk : kv.1 ∈ dictKeys d
      · rw [if_pos hk] at h'
        exact Or.inl h'
      · rw [if_neg hk] at h'
        rcases List.mem_append.mp h' with h'' | h''
        · exact Or.inl h''
        · simp only [List.mem_singleton] at h''
          exact Or.inr (by simp [h''])
    · exact Or.inr (by simp [h'])

theorem dictSet_dictSet_same (d : ObjDict) (k : String) (q q' : ℚ) :
    dictSet (dictSet d k q) k q' = dictSet d k q' := by
  unfold dictSet
  by_cases h : k ∈ dictKeys d
  · rw [if_pos h, if_pos (by rw [dictKeys_map_set]; exact h), if_pos h,
      List.map_map]
    congr 1
    funext p
    by_cases hp : p.1 = k
    · simp [Function.comp, hp]
    · simp [Function.comp, hp]
  · rw [if_neg h, if_pos (by simp [dictKeys]), if_neg h]
    rw [List.map_append, map_set_id_of_not_mem d k q' h]
    simp

theorem dictSet_comm_of_mem (d : ObjDict) (k k' : String) (q q' : ℚ)
    (hne : k ≠ k') (hk : k ∈ dictKeys d) :
    dictSet (dictSet d k' q') k q = dictSet (dictSet d k q) k' q' := by
  have hne' : k' ≠ k := fun hh => hne hh.symm
  by_cases h' : k' ∈ dictKeys d
  · unfold dictSet
    rw [if_pos h', if_pos (by rw [dictKeys_map_set]; exact hk), if_pos hk,
      if_pos (by rw [dictKeys_map_set]; exact h'), List.map_map,
      List.map_map]
    congr 1
    funext p
    by_cases hp : p.1 = k
    · have hp' : ¬ p.1 = k' := by rw [hp]; exact hne
      simp [Function.comp, hp, hp', hne, hne']
    · by_cases hp' : p.1 = k'
      · simp [Function.comp, hp, hp', hne, hne']
      · simp [Function.comp, hp, hp']
  · unfold dictSet
    have hkapp : k ∈ dictKeys (d ++ [(k', some q')]) := by
      simp only [dictKeys, List.map_append]
      exact List.mem_append.mpr (Or.inl hk)
    rw [if_neg h', if_pos hkapp, if_pos hk,
      if_neg (by rw [dictKeys_map_set]; exact h'), List.map_append]
    congr 1
    simp only [List.map_cons, List.map_nil]
    rw [if_neg hne']

theorem applyAll_dictSet_shadow (d : ObjDict) (l : List (String × ℚ))
    (k : String) (q : ℚ) (hk : k ∈ dictKeys d) (hl : k ∈ l.map Prod.fst) :
    applyAll (dictSet d k q) l = applyAll d l := by
  induction l generalizing d q with
  | nil => simp at hl
  | cons kv t ih =>
    by_cases hh : kv.1 = k
    · rw [applyAll_cons, applyAll_cons, hh, dictSet_dictSet_same]
    · have hlt : k ∈ t.map Prod.fst := by
        simp only [List.map_cons, List.mem_cons] at hl
        rcases hl with hl | hl
        · exact absurd hl.symm hh
        · exact hl
      rw [applyAll_cons, applyAll_cons,
        ← dictSet_comm_of_mem d k kv.1 q kv.2 (fun hh' => hh hh'.symm) hk]
      exact ih _ _ (mem_dictKeys_dictSet_of_mem _ _ _ _ hk) hlt

theorem applyAll_idem (d : ObjDict) (l : List (String × ℚ))
    (hd : (dictKeys d).Nodup) : applyAll (applyAll d l) l = applyAll d l := by
  induction l generalizing d with
  | nil => rfl
  | cons kv t ih =>
    rw [applyAll_cons, applyAll_cons]
    have hd' : (dictKeys (dictSet d kv.1 kv.2)).Nodup :=
      dictKeys_dictSet_nodup _ _ _ hd
    have hk' : kv.1 ∈ dictKeys (dictSet d kv.1 kv.2) :=
      mem_dictKeys_dictSet_self _ _ _
    by_cases hkt : kv.1 ∈ t.map Prod.fst
    · rw [applyAll_dictSet_shadow _ _ _ _
        (mem_dictKeys_applyAll_of_mem _ _ _ hk') hkt]
      exact ih _ hd'
    · have hget : dictGet (applyAll (dictSet d kv.1 kv.2) t) kv.1 =
          some (some kv.2) := by
        rw [dictGet_applyAll_not_mem _ _ _ hkt, dictGet_dictSet_self]
      rw [dictSet_eq_self _ _ _ (dictKeys_applyAll_nodup _ _ hd') hget]
      exact ih _ hd'

/-! Behaviour of the parameter-filtering loop. -/

theorem evseParamsOf_keys_sublist (p : List (String × PyVal)) :
    List.Sublist ((evseParamsOf p).map Prod.fst) (p.map Prod.fst) := by
  induction p with
  | nil => exact List.Sublist.refl _
  | cons kv t ih =>
    unfold evseParamsOf at *
    rw [List.filterMap_cons]
    rcases hv : pyNumeric kv.2 with _ | q
    · simp only [hv, Option.map_none']
      exact List.Sublist.cons _ ih
    · simp only [hv, Option.map_some']
      exact List.Sublist.cons₂ _ ih

theorem mem_evseParamsOf (p : List (String × PyVal)) (k : String)
    (v : PyVal) (q : ℚ) (hm : (k, v) ∈ p) (hv : pyNumeric v = some q) :
    (k, q) ∈ evseParamsOf p := by
  unfold evseParamsOf
  exact List.mem_filterMap.mpr ⟨(k, v), hm, by rw [hv]; rfl⟩

theorem nodupKeys_val_unique {α : Type} (p : List (String × α))
    (hp : (p.map Prod.fst).Nodup) (k : String) (a b : α)
    (ha : (k, a) ∈ p) (hb : (k, b) ∈ p) : a = b := by
  induction p with
  | nil => simp at ha
  | cons kv t ih =>
    simp only [List.map_cons, List.nodup_cons] at hp
    rcases List.mem_cons.mp ha with ha' | ha' <;>
      rcases List.mem_cons.mp hb with hb' | hb'
    · rw [← ha'] at hb'
      exact congrArg Prod.snd hb'.symm
    · exfalso
      apply hp.1
      have hk : kv.1 = k := by rw [← ha']
      rw [hk]
      exact List.mem_map.mpr ⟨(k, b), hb', rfl⟩
    · exfalso
      apply hp.1
      have hk : kv.1 = k := by rw [← hb']
      rw [hk]
      exact List.mem_map.mpr ⟨(k, a), ha', rfl⟩
    · exact ih hp.2 ha' hb'

theorem not_mem_evseParams_keys_of_skipped (p : List (String × PyVal))
    (hp : (p.map Prod.fst).Nodup) (k : String) (v : PyVal)
    (hm : (k, v) ∈ p) (hv : pyNumeric v = none) :
    k ∉ (evseParamsOf p).map Prod.fst := by
  intro hk
  rcases List.mem_map.mp hk with ⟨⟨k', q⟩, hq, hk'⟩
  rcases List.mem_filterMap.mp hq with ⟨⟨k'', v'⟩, hv', hf⟩
  rcases hpn : pyNumeric v' with _ | q'
  · rw [hpn] at hf
    simp at hf
  · rw [hpn] at hf
    simp only [Option.map_some', Option.some.injEq, Prod.mk.injEq] at hf
    have hk'' : k'' = k := by rw [hf.1]; exact hk'
    rw [hk''] at hv'
    have := nodupKeys_val_unique p hp k v v' hm hv'
    rw [← this] at hpn
    rw [hv] at hpn
    exact Option.noConfusion hpn

/-! Claims about `ACLimits.update` / `DCLimits.update`. -/

/-- C1: for every limits structure (the instance dictionary `d` of an
`ACLimits` or `DCLimits`) and every call to `update`, a parameter key bound
to a `PhysicalValue` dictionary `{"value": v, "exponent": e}` leaves the
attribute of that name equal to `v * 10 ^ e`, and a key bound to a plain
`int` or `float` leaves the attribute equal to that scalar unchanged. -/
theorem update_stores_decoded_values (d : ObjDict)
    (p : List (String × PyVal)) (hp : (p.map Prod.fst).Nodup) (k : String) :
    (∀ v e : ℤ, (k, PyVal.vphys v e) ∈ p →
      dictGet (Limits.update d p) k = some (some (physDecode v e)))
    ∧ (∀ n : ℤ, (k, PyVal.vint n) ∈ p →
      dictGet (Limits.update d p) k = some (some ((n : ℚ))))
    ∧ (∀ q : ℚ, (k, PyVal.vfloat q) ∈ p →
      dictGet (Limits.update d p) k = some (some q)) := by
  have hnd : ((evseParamsOf p).map Prod.fst).Nodup :=
    hp.sublist (evseParamsOf_keys_sublist p)
  refine ⟨fun v e hm => ?_, fun n hm => ?_, fun q hm => ?_⟩
  · exact dictGet_applyAll_mem d _ k _ hnd
      (mem_evseParamsOf p k _ _ hm rfl)
  · exact dictGet_applyAll_mem d _ k _ hnd
      (mem_evseParamsOf p k _ _ hm rfl)
  · exact dictGet_applyAll_mem d _ k _ hnd
      (mem_evseParamsOf p k _ _ hm rfl)

/-- Witness for C1: updating a fresh `DCLimits` with a physical-value pair
`{"value": 300, "exponent": 2}`, an `int` and a `float` stores `30000`, the
`int` and the `float` respectively. -/
theorem update_stores_decoded_values_witness :
    dictGet (Limits.update DCLimits.init
        [("evse_max_charge_power", PyVal.vphys 300 2),
         ("evse_max_voltage", PyVal.vint 500),
         ("evse_min_voltage", PyVal.vfloat (3 / 2))])
      "evse_max_charge_power" = some (some (physDecode 300 2)) :=
  (update_stores_decoded_values DCLimits.init
    [("evse_max_charge_power", PyVal.vphys 300 2),
     ("evse_max_voltage", PyVal.vint 500),
     ("evse_min_voltage", PyVal.vfloat (3 / 2))]
    (by decide) "evse_max_charge_power").1 300 2 (by decide)

/-- C2: a field whose name does not occur as a key of the parameter mapping
has exactly the same value after `update` as before it (partial update). -/
theorem update_frame (d : ObjDict) (p : List (String × PyVal)) (k : String)
    (hk : k ∉ p.map Prod.fst) :
    dictGet (Limits.update d p) k = dictGet d k := by
  have : k ∉ (evseParamsOf p).map Prod.fst :=
    fun h => hk ((evseParamsOf_keys_sublist p).subset h)
  exact dictGet_applyAll_not_mem d _ k this

/-- Witness for C2: updating only `evse_max_current` leaves
`evse_nominal_voltage` untouched. -/
theorem update_frame_witness :
    dictGet (Limits.update ACLimits.init [("evse_max_current", PyVal.vint 32)])
        "evse_nominal_voltage"
      = dictGet ACLimits.init "evse_nominal_voltage" :=
  update_frame ACLimits.init [("evse_max_current", PyVal.vint 32)]
    "evse_nominal_voltage" (by decide)

/-- C3: calling `update` twice with the same parameter mapping leaves the
structure in exactly the same state as calling it once (idempotence); the
hypothesis records that an instance dictionary never has duplicate keys. -/
theorem update_idem (d : ObjDict) (hd : (dictKeys d).Nodup)
    (p : List (String × PyVal)) :
    Limits.update (Limits.update d p) p = Limits.update d p :=
  applyAll_idem d (evseParamsOf p) hd

/-- Witness for C3 on a fresh `ACLimits` with a recognized and an
unrecognized key. -/
theorem update_idem_witness :
    Limits.update (Limits.update ACLimits.init
        [("evse_max_current", PyVal.vint 32), ("extra_key", PyVal.vphys 1 1)])
        [("evse_max_current", PyVal.vint 32), ("extra_key", PyVal.vphys 1 1)]
      = Limits.update ACLimits.init
        [("evse_max_current", PyVal.vint 32),
         ("extra_key", PyVal.vphys 1 1)] :=
  update_idem ACLimits.init (by decide)
    [("evse_max_current", PyVal.vint 32), ("extra_key", PyVal.vphys 1 1)]

/-- Counterexample for C4: `update` merges `evse_params` into
`self.__dict__` with `dict.update`, so an unrecognized numeric key is
added as a new instance attribute; after updating a fresh `ACLimits` with
the unrecognized key `"not_a_field"`, `as_dict` no longer exposes exactly
the declared fields. -/
theorem update_unknown_key_leaks :
    dictKeys (Limits.as_dict (Limits.update ACLimits.init
        [("not_a_field", PyVal.vint 5)])) ≠ ACLimits.fieldNames := by
  decide

/-- C4 as amended: a parameter key that is not a declared field is not
rejected (the call succeeds on any mapping), but instead of being ignored
it is merged into the instance dictionary: a numeric unrecognized key
afterwards appears in `as_dict` with its decoded value, and every key
`as_dict` exposes is either a previously present attribute or a parameter
key.  Declared fields are still modified only at recognized keys (C2). -/
theorem update_unknown_keys_merged (d : ObjDict)
    (p : List (String × PyVal)) (hp : (p.map Prod.fst).Nodup) :
    (∀ (k : String) (n : ℤ), (k, PyVal.vint n) ∈ p →
      dictGet (Limits.as_dict (Limits.update d p)) k = some (some ((n : ℚ))))
    ∧ (∀ k : String, k ∈ dictKeys (Limits.as_dict (Limits.update d p)) →
      k ∈ dictKeys d ∨ k ∈ p.map Prod.fst) := by
  have hnd : ((evseParamsOf p).map Prod.fst).Nodup :=
    hp.sublist (evseParamsOf_keys_sublist p)
  constructor
  · intro k n hm
    exact dictGet_applyAll_mem d _ k _ hnd (mem_evseParamsOf p k _ _ hm rfl)
  · intro k hk
    rcases mem_dictKeys_applyAll d _ k hk with h | h
    · exact Or.inl h
    · exact Or.inr ((evseParamsOf_keys_sublist p).subset h)

/-- Witness for the amended C4: the unrecognized key `"not_a_field"` is
accepted and exposed by `as_dict` with its value. -/
theorem update_unknown_keys_merged_witness :
    dictGet (Limits.as_dict (Limits.update ACLimits.init
        [("not_a_field", PyVal.vint 5)])) "not_a_field"
      = some (some ((5 : ℤ) : ℚ)) :=
  (update_unknown_keys_merged ACLimits.init
    [("not_a_field", PyVal.vint 5)] (by decide)).1 "not_a_field" 5 (by decide)

/-- C10: a parameter value whose runtime type is not exactly `dict`, `int`
or `float` — a `bool`, `str` or `None` — is silently dropped by `update`:
the call raises no error (the embedded `update` is total) and the field
named by that key keeps its previous value. -/
theorem update_drops_non_numeric (d : ObjDict)
    (p : List (String × PyVal)) (hp : (p.map Prod.fst).Nodup)
    (k : String) (v : PyVal) (hm : (k, v) ∈ p)
    (hv : (∃ b, v = PyVal.vbool b) ∨ (∃ s, v = PyVal.vstr s) ∨
      v = PyVal.vnone) :
    dictGet (Limits.update d p) k = dictGet d k := by
  have hnone : pyNumeric v = none := by
    rcases hv with ⟨b, rfl⟩ | ⟨s, rfl⟩ | rfl <;> rfl
  exact dictGet_applyAll_not_mem d _ k
    (not_mem_evseParams_keys_of_skipped p hp k v hm hnone)

/-- Witness for C10: a string value for `evse_max_voltage` leaves the field
at its previous value (`None`). -/
theorem update_drops_non_numeric_witness :
    dictGet (Limits.update DCLimits.init
        [("evse_max_voltage", PyVal.vstr "500")]) "evse_max_voltage"
      = dictGet DCLimits.init "evse_max_voltage" :=
  update_drops_non_numeric DCLimits.init
    [("evse_max_voltage", PyVal.vstr "500")] (by decide)
    "evse_max_voltage" (PyVal.vstr "500") (by decide)
    (Or.inr (Or.inl ⟨"500", rfl⟩))

/-! Embedding of the protocol registry (enums.py, class `Protocol`). -/

/-- The payload-type enumeration class associated with a protocol member
(the second tuple entry of each `Protocol` value in enums.py). -/
inductive PayloadTypes where
  | DINPayloadTypes
  | ISOV2PayloadTypes
  | ISOV20PayloadTypes
deriving DecidableEq

/-- The members of the `Protocol` enum (enums.py lines 144-158). -/
inductive Protocol where
  | UNKNOWN
  | DIN_SPEC_70121
  | ISO_15118_2
  | ISO_15118_20_AC
  | ISO_15118_20_DC
  | ISO_15118_20_WPT
  | ISO_15118_20_ACDP
deriving DecidableEq

/-- The namespace of each `Protocol` member (first tuple entry of the enum
values; the `Namespace` string constants from enums.py lines 127-141). -/
def Protocol.nsOf : Protocol → String
  | .UNKNOWN => ""
  | .DIN_SPEC_70121 => "urn:din:70121:2012:MsgDef"
  | .ISO_15118_2 => "urn:iso:15118:2:2013:MsgDef"
  | .ISO_15118_20_AC => "urn:iso:std:iso:15118:-20:AC"
  | .ISO_15118_20_DC => "urn:iso:std:iso:15118:-20:DC"
  | .ISO_15118_20_WPT => "urn:iso:std:iso:15118:-20:WPT"
  | .ISO_15118_20_ACDP => "urn:iso:std:iso:15118:-20:ACDP"

/-- The payload-type table of each `Protocol` member (second tuple entry of
the enum values). -/
def Protocol.payloadsOf : Protocol → PayloadTypes
  | .UNKNOWN => .ISOV2PayloadTypes
  | .DIN_SPEC_70121 => .DINPayloadTypes
  | .ISO_15118_2 => .ISOV2PayloadTypes
  | .ISO_15118_20_AC => .ISOV20PayloadTypes
  | .ISO_15118_20_DC => .ISOV20PayloadTypes
  | .ISO_15118_20_WPT => .ISOV20PayloadTypes
  | .ISO_15118_20_ACDP => .ISOV20PayloadTypes

/-- `Protocol.options()`: the members in declaration order. -/
def Protocol.options : List Protocol :=
  [.UNKNOWN, .DIN_SPEC_70121, .ISO_15118_2, .ISO_15118_20_AC,
   .ISO_15118_20_DC, .ISO_15118_20_WPT, .ISO_15118_20_ACDP]

/-- `Protocol.get_by_ns` (enums.py lines 197-205): the first member whose
namespace equals the argument, `UNKNOWN` when none matches. -/
def Protocol.get_by_ns (nsp : String) : Protocol :=
  match Protocol.options.find? (fun pr => pr.nsOf == nsp) with
  | some pr => pr
  | none => .UNKNOWN

/-- The namespaces the station supports: the namespaces of
`Protocol.allowed_protocols()` (enums.py lines 189-195), which is every
member except `UNKNOWN` (the filter also names `ISO_15118_20`, which is not
a member, so it excludes nothing else). -/
def supportedNamespaces : List String :=
  (Protocol.options.filter (fun pr => pr ≠ .UNKNOWN)).map Protocol.nsOf

/-- The failure mode of protocol negotiation. -/
inductive NegotiationError where
  | NoCompatibleProtocol
deriving DecidableEq

/-- Modelled from the spec: the `negotiate` operation of the
protocol/service registry is not part of the sources under src/ (only the
`Protocol` table and `get_by_ns` are), so it is modelled from §4.2 of the
spec: walk the peer's offered namespaces in priority order, select the
first one the station supports — returning the dialect together with its
default payload-type table — and fail with `NoCompatibleProtocol` when no
offered namespace is supported. -/
def negotiate : List String → Except NegotiationError (Protocol × PayloadTypes)
  | [] => .error .NoCompatibleProtocol
  | nsp :: rest =>
    if Protocol.get_by_ns nsp ≠ Protocol.UNKNOWN then
      .ok (Protocol.get_by_ns nsp, (Protocol.get_by_ns nsp).payloadsOf)
    else negotiate rest

theorem mem_supportedNamespaces_iff (nsp : String) :
    nsp ∈ supportedNamespaces ↔ Protocol.get_by_ns nsp ≠ Protocol.UNKNOWN := by
  constructor
  · intro h
    have h' : nsp = "urn:din:70121:2012:MsgDef" ∨
        nsp = "urn:iso:15118:2:2013:MsgDef" ∨
        nsp = "urn:iso:std:iso:15118:-20:AC" ∨
        nsp = "urn:iso:std:iso:15118:-20:DC" ∨
        nsp = "urn:iso:std:iso:15118:-20:WPT" ∨
        nsp = "urn:iso:std:iso:15118:-20:ACDP" := by
      simpa [supportedNamespaces, Protocol.options, Protocol.nsOf] using h
    rcases h' with rfl | rfl | rfl | rfl | rfl | rfl <;> decide
  · intro h
    rcases hfind : Protocol.options.find? (fun pr => pr.nsOf == nsp)
      with _ | pr
    · exfalso
      apply h
      unfold Protocol.get_by_ns
      rw [hfind]
    · have hns : pr.nsOf = nsp := by
        simpa using List.find?_some hfind
      have hpr : Protocol.get_by_ns nsp = pr := by
        unfold Protocol.get_by_ns
        rw [hfind]
      have hprU : pr ≠ Protocol.UNKNOWN := by
        intro hu
        apply h
        rw [hpr, hu]
      have hmem : pr ∈ Protocol.options.filter (fun x => x ≠ .UNKNOWN) := by
        rw [List.mem_filter]
        exact ⟨List.mem_of_find?_eq_some hfind, by simpa using hprU⟩
      rw [← hns]
      exact List.mem_map.mpr ⟨pr, hmem, rfl⟩

/-- C5: when no offered namespace intersects the station-supported
namespaces, negotiation fails with `NoCompatibleProtocol`; when the
intersection is non-empty, negotiation returns the dialect of the
highest-priority (earliest) supported offered namespace together with its
default payload-type table. -/
theorem negotiate_spec (offered : List String) :
    ((∀ nsp ∈ offered, nsp ∉ supportedNamespaces) →
      negotiate offered = .error .NoCompatibleProtocol)
    ∧ (∀ pre nsp post, offered = pre ++ nsp :: post →
      (∀ x ∈ pre, x ∉ supportedNamespaces) → nsp ∈ supportedNamespaces →
      negotiate offered =
        .ok (Protocol.get_by_ns nsp, (Protocol.get_by_ns nsp).payloadsOf)) := by
  constructor
  · intro h
    induction offered with
    | nil => rfl
    | cons x rest ih =>
      have hx : Protocol.get_by_ns x = Protocol.UNKNOWN := by
        by_contra hc
        exact h x (List.mem_cons_self x rest)
          ((mem_supportedNamespaces_iff x).mpr hc)
      rw [negotiate, if_neg (by simpa using hx)]
      exact ih (fun y hy => h y (List.mem_cons_of_mem x hy))
  · intro pre nsp post hoff hpre hnsp
    subst hoff
    induction pre with
    | nil =>
      rw [List.nil_append, negotiate,
        if_pos ((mem_supportedNamespaces_iff nsp).mp hnsp)]
    | cons x rest ih =>
      have hx : Protocol.get_by_ns x = Protocol.UNKNOWN := by
        by_contra hc
        exact hpre x (List.mem_cons_self x rest)
          ((mem_supportedNamespaces_iff x).mpr hc)
      rw [List.cons_append, negotiate, if_neg (by simpa using hx)]
      exact ih (fun y hy => hpre y (List.mem_cons_of_mem x hy))

/-- Witness for C5: an unsupported namespace list fails, and an offer with
an unsupported entry ahead of the ISO 15118-2 namespace selects
ISO 15118-2 with the ISO-2 payload-type table. -/
theorem negotiate_spec_witness :
    negotiate ["urn:bogus"] = .error .NoCompatibleProtocol
    ∧ negotiate ["urn:bogus", "urn:iso:15118:2:2013:MsgDef"] =
      .ok (Protocol.ISO_15118_2, PayloadTypes.ISOV2PayloadTypes) :=
  ⟨(negotiate_spec ["urn:bogus"]).1 (by decide),
   (negotiate_spec ["urn:bogus", "urn:iso:15118:2:2013:MsgDef"]).2
     ["urn:bogus"] "urn:iso:15118:2:2013:MsgDef" [] rfl (by decide)
     (by decide)⟩

/-! Embedding of the service registry (enums.py, class `ServiceV20`). -/

/-- The members of the `ServiceV20` enum (enums.py lines 219-236). -/
inductive ServiceV20 where
  | AC
  | DC
  | WPT
  | DC_ACDP
  | AC_BPT
  | DC_BPT
  | DC_ACDP_BPT
  | INTERNET
  | PARKING_STATUS
deriving DecidableEq

/-- The wire service identifier of each member (first tuple entry of the
enum values). -/
def ServiceV20.service_id : ServiceV20 → ℤ
  | .AC => 1
  | .DC => 2
  | .WPT => 3
  | .DC_ACDP => 4
  | .AC_BPT => 5
  | .DC_BPT => 6
  | .DC_ACDP_BPT => 7
  | .INTERNET => 65
  | .PARKING_STATUS => 66

/-- `ServiceV20.get_by_id` (enums.py lines 251-278): the `if`/`elif` chain
over the registered identifiers; any other identifier raises
`ValueError(f"Invalid service ID {service_id}")`, modelled as an `error`
result carrying the message. -/
def ServiceV20.get_by_id (sid : ℤ) : Except String ServiceV20 :=
  if sid = 1 then .ok .AC
  else if sid = 2 then .ok .DC
  else if sid = 3 then .ok .WPT
  else if sid = 4 then .ok .DC_ACDP
  else if sid = 5 then .ok .AC_BPT
  else if sid = 6 then .ok .DC_BPT
  else if sid = 7 then .ok .DC_ACDP_BPT
  else if sid = 65 then .ok .INTERNET
  else if sid = 66 then .ok .PARKING_STATUS
  else .error ("Invalid service ID " ++ toString sid)

/-- The registered wire service identifiers. -/
def registeredServiceIds : List ℤ := [1, 2, 3, 4, 5, 6, 7, 65, 66]

/-- C6: for every integer in the registered table, `get_by_id` returns the
member whose identifier equals it; for every integer outside the table it
fails (raises `ValueError`) instead of returning a descriptor. -/
theorem get_by_id_spec (sid : ℤ) :
    (sid ∈ registeredServiceIds →
      ∃ s, ServiceV20.get_by_id sid = .ok s ∧ s.service_id = sid)
    ∧ (sid ∉ registeredServiceIds →
      ServiceV20.get_by_id sid =
        .error ("Invalid service ID " ++ toString sid)) := by
  constructor
  · intro h
    have h' : sid = 1 ∨ sid = 2 ∨ sid = 3 ∨ sid = 4 ∨ sid = 5 ∨ sid = 6 ∨
        sid = 7 ∨ sid = 65 ∨ sid = 66 := by
      simpa [registeredServiceIds] using h
    rcases h' with rfl | rfl | rfl | rfl | rfl | rfl | rfl | rfl | rfl
    · exact ⟨.AC, rfl, rfl⟩
    · exact ⟨.DC, rfl, rfl⟩
    · exact ⟨.WPT, rfl, rfl⟩
    · exact ⟨.DC_ACDP, rfl, rfl⟩
    · exact ⟨.AC_BPT, rfl, rfl⟩
    · exact ⟨.DC_BPT, rfl, rfl⟩
    · exact ⟨.DC_ACDP_BPT, rfl, rfl⟩
    · exact ⟨.INTERNET, rfl, rfl⟩
    · exact ⟨.PARKING_STATUS, rfl, rfl⟩
  · intro h
    have h' : ¬ (sid = 1 ∨ sid = 2 ∨ sid = 3 ∨ sid = 4 ∨ sid = 5 ∨
        sid = 6 ∨ sid = 7 ∨ sid = 65 ∨ sid = 66) := by
      simpa [registeredServiceIds] using h
    push_neg at h'
    obtain ⟨h1, h2, h3, h4, h5, h6, h7, h8, h9⟩ := h'
    unfold ServiceV20.get_by_id
    rw [if_neg h1, if_neg h2, if_neg h3, if_neg h4, if_neg h5, if_neg h6,
      if_neg h7, if_neg h8, if_neg h9]

/-- Witness for C6: identifier 6 resolves to the DC bidirectional service
and identifier 0 is rejected. -/
theorem get_by_id_spec_witness :
    (∃ s, ServiceV20.get_by_id 6 = .ok s ∧ s.service_id = 6)
    ∧ ServiceV20.get_by_id 0 =
      .error ("Invalid service ID " ++ toString (0 : ℤ)) :=
  ⟨(get_by_id_spec 6).1 (by decide), (get_by_id_spec 0).2 (by decide)⟩

/-! The fixed-point quantity codec. -/

/-- The failure mode of the quantity-codec encoder (spec §4.1). -/
inductive EncodingError where
  | EncodingRangeError
deriving DecidableEq

/-- Modelled from the spec: the predicate "the mantissa fits the target
integer width" for a candidate exponent — `x / 10 ^ e` must be an integer
within the signed range of `mantissaBits` bits. -/
def fitsMantissa (x : ℚ) (mantissaBits : ℕ) (e : ℤ) : Bool :=
  decide ((x / (10 : ℚ) ^ e).den = 1)
    && decide (-(2 : ℤ) ^ (mantissaBits - 1) ≤ (x / (10 : ℚ) ^ e).num)
    && decide ((x / (10 : ℚ) ^ e).num ≤ 2 ^ (mantissaBits - 1) - 1)

/-- The candidate exponents `-maxExpMag, …, maxExpMag` in increasing
order, so that the first fitting candidate is the smallest exponent. -/
def encodeCandidates (maxExpMag : ℕ) : List ℤ :=
  (List.range (2 * maxExpMag + 1)).map
    (fun (i : ℕ) => (i : ℤ) - (maxExpMag : ℤ))

/-- Modelled from the spec: the quantity-codec
`encode(x, max_exponent_magnitude, mantissa_bit_width)` is not part of the
sources under src/ (only the decoding expression in `update` is), so it is
modelled from §4.1 of the spec: choose the smallest exponent in range such
that the mantissa fits the target integer width and the round trip
reproduces `x`; fail with `EncodingRangeError` when no exponent in range
satisfies the constraint. -/
def encodePhys (x : ℚ) (maxExpMag mantissaBits : ℕ) :
    Except EncodingError (ℤ × ℤ) :=
  match (encodeCandidates maxExpMag).find? (fitsMantissa x mantissaBits) with
  | some e => .ok ((x / (10 : ℚ) ^ e).num, e)
  | none => .error .EncodingRangeError

theorem mem_encodeCandidates (maxExpMag : ℕ) (e : ℤ)
    (he : e.natAbs ≤ maxExpMag) : e ∈ encodeCandidates maxExpMag := by
  have h1 : (e + maxExpMag).toNat ∈ List.range (2 * maxExpMag + 1) :=
    List.mem_range.mpr (by omega)
  have h2 : (((e + maxExpMag).toNat : ℕ) : ℤ) - (maxExpMag : ℤ) = e := by
    omega
  unfold encodeCandidates
  exact h2 ▸ List.mem_map_of_mem (fun (i : ℕ) => (i : ℤ) - (maxExpMag : ℤ)) h1

theorem fitsMantissa_of_decoded (v e : ℤ) (w : ℕ)
    (hv₁ : -(2 : ℤ) ^ (w - 1) ≤ v) (hv₂ : v ≤ 2 ^ (w - 1) - 1) :
    fitsMantissa (physDecode v e) w e = true := by
  have h10 : (10 : ℚ) ^ e ≠ 0 := zpow_ne_zero e (by norm_num)
  have hq : physDecode v e / (10 : ℚ) ^ e = ((v : ℚ)) := by
    unfold physDecode
    exact mul_div_cancel_right₀ (v : ℚ) h10
  unfold fitsMantissa
  rw [hq]
  simp only [Rat.den_intCast, Rat.num_intCast, Bool.and_eq_true,
    decide_eq_true_eq]
  exact ⟨⟨trivial, hv₁⟩, hv₂⟩

/-- C7: for every `(value, exponent)` pair whose value lies within the
standard's signed mantissa width and whose exponent is within the codec's
exponent range, `encode (decode value exponent)` succeeds with a pair whose
semantic value `value' * 10 ^ exponent'` equals that of the input pair
(lossless round-trip). -/
theorem encode_decode_roundtrip (v e : ℤ) (maxExpMag w : ℕ)
    (hv₁ : -(2 : ℤ) ^ (w - 1) ≤ v) (hv₂ : v ≤ 2 ^ (w - 1) - 1)
    (he : e.natAbs ≤ maxExpMag) :
    ∃ v' e', encodePhys (physDecode v e) maxExpMag w = .ok (v', e')
      ∧ physDecode v' e' = physDecode v e := by
  rcases hfind : (encodeCandidates maxExpMag).find?
      (fitsMantissa (physDecode v e) w) with _ | e'
  · exfalso
    exact absurd (fitsMantissa_of_decoded v e w hv₁ hv₂)
      (by simpa using
        List.find?_eq_none.mp hfind e (mem_encodeCandidates maxExpMag e he))
  · have hfits : fitsMantissa (physDecode v e) w e' = true :=
      List.find?_some hfind
    have hden : (physDecode v e / (10 : ℚ) ^ e').den = 1 := by
      unfold fitsMantissa at hfits
      simp only [Bool.and_eq_true, decide_eq_true_eq] at hfits
      exact hfits.1.1
    have h10 : (10 : ℚ) ^ e' ≠ 0 := zpow_ne_zero e' (by norm_num)
    refine ⟨(physDecode v e / (10 : ℚ) ^ e').num, e', ?_, ?_⟩
    · unfold encodePhys
      rw [hfind]
    · have hint : (((physDecode v e / (10 : ℚ) ^ e').num : ℤ) : ℚ) =
          physDecode v e / (10 : ℚ) ^ e' := by
        conv_rhs => rw [← Rat.num_div_den (physDecode v e / (10 : ℚ) ^ e')]
        rw [hden]
        simp
      show (((physDecode v e / (10 : ℚ) ^ e').num : ℤ) : ℚ) *
          (10 : ℚ) ^ e' = physDecode v e
      rw [hint]
      exact div_mul_cancel₀ (physDecode v e) h10

/-- Witness for C7: the pair `(300, 2)` (semantic value 30000) round-trips
through the codec with a 16-bit mantissa and exponent magnitude 4. -/
theorem encode_decode_roundtrip_witness :
    ∃ v' e', encodePhys (physDecode 300 2) 4 16 = .ok (v', e')
      ∧ physDecode v' e' = physDecode 300 2 :=
  encode_decode_roundtrip 300 2 4 16 (by decide) (by decide) (by decide)

/-! Embedding of the remote-control bridge (evse_data_remote_node.py). -/

/-- Python `s.find(sub)`: the lowest index at which `sub` occurs in `s`,
`-1` when it does not occur. -/
def strFind (s sub : String) : ℤ :=
  match (List.range (s.length + 1)).find?
      (fun i => (s.toList.drop i).take sub.length == sub.toList) with
  | some i => (i : ℤ)
  | none => -1

/-- `MQTT_TOPIC_SIMEVSE_CMD_PREFIX` (evse_data_remote_node.py line 32). -/
def MQTT_TOPIC_SIMEVSE_CMD : String := "SimEVSE/cmd/"

/-- The topic of a bus "set" command, as published under the
`SCC_Set/#` subscription (evse_data_remote_node.py line 66). -/
def sccSetTopic (cmd : String) : String :=
  MQTT_TOPIC_SIMEVSE_CMD ++ "SCC_Set/" ++ cmd

/-- The externally observable effect of one `on_message` invocation:
a call of a typed setter entry point of the controller with the parsed
payload, a direct attribute assignment through a path of attribute names
below `self.evse_controller`, enqueueing on the release queue, or nothing
at all. -/
inductive Action where
  | callSetter (setter : String) (payload : String)
  | attrWrite (path : List String) (value : String)
  | enqueueRelease (payload : String)
  | noop
deriving DecidableEq

/-- `evseDataRemoteNode.on_message` (evse_data_remote_node.py lines
68-118): the `if`/`elif` chain over `str(message.topic).find(...) > 0`,
with each branch modelled as the action it performs.  Setter calls carry
the raw payload string (the `float`/enum constructor applied to
`message.payload.decode("utf-8")` is injective in the payload, so the
parse wrapper is elided); attribute assignments carry the attribute path;
the `EVSENotification` branch assigns the constant `RE_NEGOTIATION`
regardless of the payload (line 91); the `TargetVoltage` and
`TargetCurrent` branches are `pass` (lines 112-115); a topic matching no
pattern falls off the chain. -/
def on_message (topic payload : String) : Action :=
  if strFind topic "/ResponseCode" > 0 then
    .callSetter "set_evse_response_code" payload
  else if strFind topic "/ForceStatusCode" > 0 then
    .callSetter "set_evse_status_code" payload
  else if strFind topic "/NotificationMaxDelay" > 0 then
    .callSetter "set_notification_max_delay" payload
  else if strFind topic "/EVSEProcessing" > 0 then
    .callSetter "set_evse_processing" payload
  else if strFind topic "/EVSENotification" > 0 then
    .attrWrite ["evse_notification"] "RE_NEGOTIATION"
  else if strFind topic "/MaxPower" > 0 then
    .attrWrite
      ["evse_data_context", "session_limits", "dc_limits",
       "max_charge_power"] payload
  else if strFind topic "/MaxCurrent" > 0 then
    .attrWrite
      ["evse_data_context", "session_limits", "dc_limits",
       "max_charge_current"] payload
  else if strFind topic "/MaxVoltage" > 0 then
    .attrWrite
      ["evse_data_context", "session_limits", "dc_limits", "max_voltage"]
      payload
  else if strFind topic "/MinCurrent" > 0 then
    .attrWrite
      ["evse_data_context", "session_limits", "dc_limits", "min_current"]
      payload
  else if strFind topic "/MinVoltage" > 0 then
    .attrWrite
      ["evse_data_context", "session_limits", "dc_limits", "min_voltage"]
      payload
  else if strFind topic "/PeakCurrentRipple" > 0 then
    .attrWrite ["evse_data_context", "peak_current_ripple"] payload
  else if strFind topic "/PresentVoltage" > 0 then
    .attrWrite ["evse_data_context", "present_voltage"] payload
  else if strFind topic "/PresentCurrent" > 0 then
    .attrWrite ["evse_data_context", "present_current"] payload
  else if strFind topic "/NominalVoltage" > 0 then
    .attrWrite ["evse_data_context", "nominal_voltage"] payload
  else if strFind topic "/CurrentRegulationTolerance" > 0 then
    .attrWrite ["evse_data_context", "current_regulation_tolerance"] payload
  else if strFind topic "/TargetVoltage" > 0 then
    .noop
  else if strFind topic "/TargetCurrent" > 0 then
    .noop
  else if strFind topic "/SCC_RequestDone" > 0 then
    .enqueueRelease payload
  else
    .noop

/-- The declared fields of the `DCCLLimits` dataclass (evse_data.py lines
79-90). -/
def DCCLLimits.fieldNames : List String :=
  [ "evse_max_charge_power", "evse_min_charge_power",
    "evse_max_charge_current", "evse_max_voltage",
    "evse_max_discharge_power", "evse_min_discharge_power",
    "evse_max_discharge_current", "evse_min_voltage" ]

/-- The declared fields of the `ACCLLimits` dataclass (evse_data.py lines
6-16). -/
def ACCLLimits.fieldNames : List String :=
  [ "evse_target_active_power", "evse_target_active_power_l2",
    "evse_target_active_power_l3", "evse_target_reactive_power",
    "evse_target_reactive_power_l2", "evse_target_reactive_power_l3",
    "evse_present_active_power", "evse_present_active_power_l2",
    "evse_present_active_power_l3" ]

/-- The attribute graph of the nested EVSE data model (evse_data.py lines
143-168): for each dataclass name, its declared fields together with the
dataclass of each field's value. -/
def structFields : String → List (String × String)
  | "EVSEDataContext" =>
    [("rated_limits", "EVSERatedLimits"),
     ("session_context", "EVSESessionContext")]
  | "EVSERatedLimits" =>
    [("ac_limits", "ACLimits"), ("dc_limits", "DCLimits")]
  | "EVSESessionContext" =>
    [("departure_time", "int"), ("min_soc", "int"), ("target_soc", "int"),
     ("ack_max_delay", "int"), ("evse_present_current", "float"),
     ("evse_present_voltage", "float"), ("ac_limits", "ACCLLimits"),
     ("dc_limits", "DCCLLimits")]
  | "ACLimits" => ACLimits.fieldNames.map (fun f => (f, "float"))
  | "DCLimits" => DCLimits.fieldNames.map (fun f => (f, "float"))
  | "ACCLLimits" => ACCLLimits.fieldNames.map (fun f => (f, "float"))
  | "DCCLLimits" => DCCLLimits.fieldNames.map (fun f => (f, "float"))
  | _ => []

/-- Whether a chain of attribute accesses starting from an object of the
given dataclass resolves through declared fields only; a `false` step is
an `AttributeError` at runtime. -/
def hasPath (ty : String) : List String → Bool
  | [] => true
  | f :: rest =>
    match (structFields ty).find? (fun p => p.1 == f) with
    | some p => hasPath p.2 rest
    | none => false

/-- Counterexample for C8: a `TargetVoltage` set command reaches the
`pass` branch of `on_message` — its payload is neither parsed nor handed
to any setter entry point of the core; the handler performs no action at
all, contradicting the claim that every listed command takes effect. -/
theorem on_message_target_voltage_dropped :
    on_message (sccSetTopic "TargetVoltage") "400" = Action.noop := by rfl

/-- C8 as amended: of the listed bus "set" commands, the response code,
processing status and notification-delay commands invoke the
corresponding typed setter entry point of the core with the parsed
payload, and the max-power / min-current / max-voltage commands assign the
parsed payload through an attribute path on the core's data context; but
the target-voltage and target-current commands are `pass` branches whose
payload is discarded without being applied, and the notification command
discards its payload and assigns the constant `RE_NEGOTIATION`. -/
theorem on_message_dispatch (payload : String) :
    on_message (sccSetTopic "ResponseCode") payload =
      .callSetter "set_evse_response_code" payload
    ∧ on_message (sccSetTopic "EVSEProcessing") payload =
      .callSetter "set_evse_processing" payload
    ∧ on_message (sccSetTopic "NotificationMaxDelay") payload =
      .callSetter "set_notification_max_delay" payload
    ∧ on_message (sccSetTopic "MaxPower") payload =
      .attrWrite
        ["evse_data_context", "session_limits", "dc_limits",
         "max_charge_power"] payload
    ∧ on_message (sccSetTopic "MinCurrent") payload =
      .attrWrite
        ["evse_data_context", "session_limits", "dc_limits", "min_current"]
        payload
    ∧ on_message (sccSetTopic "MaxVoltage") payload =
      .attrWrite
        ["evse_data_context", "session_limits", "dc_limits", "max_voltage"]
        payload
    ∧ on_message (sccSetTopic "TargetVoltage") payload = .noop
    ∧ on_message (sccSetTopic "TargetCurrent") payload = .noop
    ∧ on_message (sccSetTopic "EVSENotification") payload =
      .attrWrite ["evse_notification"] "RE_NEGOTIATION" := by
  refine ⟨rfl, rfl, rfl, rfl, rfl, rfl, rfl, rfl, rfl⟩

/-- C9: the five limit set commands write through the attribute path
`evse_data_context.session_limits.dc_limits.<flat name>`; under the nested
`EVSEDataContext` model — whose session sub-structure is named
`session_context` and whose DC charge-loop limit fields carry the `evse_`
prefix — no such path exists, so each write fails to resolve (an
`AttributeError` branch) instead of updating a declared field.  The last
two conjuncts record the name mismatches: the path with `session_context`
and the `evse_` prefix does resolve, while the flat field name does not
resolve even below `session_context`. -/
theorem on_message_limit_writes_unresolvable (payload : String) :
    (on_message (sccSetTopic "MaxPower") payload =
        .attrWrite
          ["evse_data_context", "session_limits", "dc_limits",
           "max_charge_power"] payload
      ∧ hasPath "EVSEDataContext"
          ["session_limits", "dc_limits", "max_charge_power"] = false)
    ∧ (on_message (sccSetTopic "MaxCurrent") payload =
        .attrWrite
          ["evse_data_context", "session_limits", "dc_limits",
           "max_charge_current"] payload
      ∧ hasPath "EVSEDataContext"
          ["session_limits", "dc_limits", "max_charge_current"] = false)
    ∧ (on_message (sccSetTopic "MaxVoltage") payload =
        .attrWrite
          ["evse_data_context", "session_limits", "dc_limits",
           "max_voltage"] payload
      ∧ hasPath "EVSEDataContext"
          ["session_limits", "dc_limits", "max_voltage"] = false)
    ∧ (on_message (sccSetTopic "MinCurrent") payload =
        .attrWrite
          ["evse_data_context", "session_limits", "dc_limits",
           "min_current"] payload
      ∧ hasPath "EVSEDataContext"
          ["session_limits", "dc_limits", "min_current"] = false)
    ∧ (on_message (sccSetTopic "MinVoltage") payload =
        .attrWrite
          ["evse_data_context", "session_limits", "dc_limits",
           "min_voltage"] payload
      ∧ hasPath "EVSEDataContext"
          ["session_limits", "dc_limits", "min_voltage"] = false)
    ∧ hasPath "EVSEDataContext"
        ["session_context", "dc_limits", "evse_max_charge_power"] = true
    ∧ hasPath "EVSEDataContext"
        ["session_context", "dc_limits", "max_charge_power"] = false := by
  refine ⟨⟨rfl, rfl⟩, ⟨rfl, rfl⟩, ⟨rfl, rfl⟩, ⟨rfl, rfl⟩, ⟨rfl, rfl⟩,
    rfl, rfl⟩
